import Mathlib

/-!
Verification of the fuel-core chain-config snapshot codec.

This file embeds, as Lean definitions, the data model and operations of
`crates/chain-config/src/config/{state.rs, coin.rs, codec.rs}`:

- the spendable-coin entity `CoinConfig` and its serde (JSON) codec,
- the snapshot aggregate `StateConfig`, its serde codec,
  `generate_state_config`, `load_from_file`, `local_testnet` and
  `initial_coin`,
- the genesis commitment `root()` for `CompressedCoin`,
- the document backend's batch slicing (`Batch`, `BatchReader`).

Machine integers (u8/u16/u32/u64) are modelled as `Nat`; none of the code
under scrutiny performs wrapping arithmetic.  Byte arrays are lists of
`Fin 256`.  Serde's JSON data model is embedded as the inductive `Json`,
and each `Serialize`/`Deserialize` derive is translated field by field,
including `skip_serializing_none` (absent `Option` fields omit their key)
and `serde(default = ...)` (missing keys fall back to a default; for
`tx_id` the default draws from the ambient RNG, which is modelled as an
explicitly passed supply of fresh values).
-/

/-- A byte value (u8). -/
abbrev Byte := Fin 256

/-- A 32-byte value (`fuel_types::Bytes32`); the fixed length is not
enforced by the embedding, none of the verified claims depends on it. -/
abbrev Bytes32 := List Byte

/-- An address (`fuel_types::Address`), a 32-byte value. -/
abbrev Address := List Byte

/-- An asset identifier (`fuel_types::AssetId`), a 32-byte value. -/
abbrev AssetId := List Byte

/-- A Merkle root digest (`fuel_core_storage::MerkleRoot`), 32 bytes. -/
abbrev MerkleRoot := List Byte

/-- The all-zero 32-byte value, i.e. `Default::default()` for the
fixed-size byte array types. -/
def zeroBytes32 : List Byte := List.replicate 32 0

/-! ## Hexadecimal rendering of byte arrays

The persisted document form renders byte-array fields as fixed-length
hexadecimal text (spec section 6); these definitions model the hex
(de)serialization used by the fuel-types serde implementations. -/

/-- The lowercase hexadecimal digit character for a nibble value:
digits for values below ten, then lowercase letters. -/
def nibbleChar (n : Nat) : Char :=
  Char.ofNat (if n < 10 then 48 + n else 87 + n)

/-- The two hexadecimal digit characters of one byte, high nibble first. -/
def byteHexChars (b : Byte) : List Char := [nibbleChar (b.val / 16), nibbleChar (b.val % 16)]

/-- Hex-encode a byte string with a `0x` prefix. -/
def hexEncode (bs : List Byte) : String :=
  String.mk ('0' :: 'x' :: (bs.map byteHexChars).flatten)

/-- The value of one lowercase hexadecimal digit character, `none` for
any other character. -/
def nibbleVal (c : Char) : Option Nat :=
  if 48 ≤ c.toNat ∧ c.toNat ≤ 57 then some (c.toNat - 48)
  else if 97 ≤ c.toNat ∧ c.toNat ≤ 102 then some (c.toNat - 87)
  else none

/-- Decode a sequence of hexadecimal digit characters, two per byte. -/
def hexPairsDecode : List Char → Option (List Byte)
  | [] => some []
  | [_] => none
  | a :: b :: rest =>
    match nibbleVal a, nibbleVal b, hexPairsDecode rest with
    | some x, some y, some bs =>
      if h : 16 * x + y < 256 then some (⟨16 * x + y, h⟩ :: bs) else none
    | _, _, _ => none

/-- Decode a `0x`-prefixed hexadecimal string into bytes. -/
def hexDecode (s : String) : Option (List Byte) :=
  match s.data with
  | '0' :: 'x' :: rest => hexPairsDecode rest
  | _ => none

theorem nibbleVal_nibbleChar : ∀ n : Fin 16, nibbleVal (nibbleChar n.val) = some n.val := by
  decide

theorem hexPairsDecode_cons (b : Byte) (rest : List Char) (r : List Byte)
    (h : hexPairsDecode rest = some r) :
    hexPairsDecode (byteHexChars b ++ rest) = some (b :: r) := by
  have hhi : b.val / 16 < 16 := by omega
  have hlo : b.val % 16 < 16 := by omega
  have h1 := nibbleVal_nibbleChar ⟨b.val / 16, hhi⟩
  have h2 := nibbleVal_nibbleChar ⟨b.val % 16, hlo⟩
  simp only [byteHexChars, List.cons_append, List.nil_append]
  simp only [hexPairsDecode, h1, h2, h]
  have hval : 16 * (b.val / 16) + b.val % 16 = b.val := by omega
  have hlt : 16 * (b.val / 16) + b.val % 16 < 256 := by omega
  rw [dif_pos hlt]
  simp only [Option.some.injEq, List.cons.injEq, and_true]
  exact Fin.ext hval

theorem hexDecode_hexEncode (bs : List Byte) : hexDecode (hexEncode bs) = some bs := by
  show hexPairsDecode ((bs.map byteHexChars).flatten) = some bs
  induction bs with
  | nil => rfl
  | cons b rest ih =>
    simp only [List.map_cons, List.flatten_cons]
    exact hexPairsDecode_cons b _ rest ih

/-! ## SHA-256

Model of the `fuel_crypto::Hasher` digest primitive used by the genesis
commitment (spec section 4.5: "a single cryptographic hash accumulator").
`fuel_crypto::Hasher` is SHA-256; the full compression function is
implemented here so that `root()` produces a concrete digest. -/

/-- Truncate to a 32-bit word. -/
def w32 (n : Nat) : Nat := n % 4294967296

/-- Right-rotation of a 32-bit word. -/
def rotr32 (n x : Nat) : Nat := w32 ((x >>> n) ||| (x <<< (32 - n)))

/-- The SHA-256 choice function. -/
def shaCh (x y z : Nat) : Nat := (x &&& y) ^^^ ((x ^^^ 4294967295) &&& z)

/-- The SHA-256 majority function. -/
def shaMaj (x y z : Nat) : Nat := (x &&& y) ^^^ (x &&& z) ^^^ (y &&& z)

/-- The SHA-256 big sigma-0 function. -/
def bigSigma0 (x : Nat) : Nat := rotr32 2 x ^^^ rotr32 13 x ^^^ rotr32 22 x

/-- The SHA-256 big sigma-1 function. -/
def bigSigma1 (x : Nat) : Nat := rotr32 6 x ^^^ rotr32 11 x ^^^ rotr32 25 x

/-- The SHA-256 small sigma-0 function. -/
def smallSigma0 (x : Nat) : Nat := rotr32 7 x ^^^ rotr32 18 x ^^^ (x >>> 3)

/-- The SHA-256 small sigma-1 function. -/
def smallSigma1 (x : Nat) : Nat := rotr32 17 x ^^^ rotr32 19 x ^^^ (x >>> 10)

/-- The sixty-four SHA-256 round constants (decimal). -/
def shaK : List Nat :=
  [1116352408, 1899447441, 3049323471, 3921009573, 961987163, 1508970993,
   2453635748, 2870763221, 3624381080, 310598401, 607225278, 1426881987,
   1925078388, 2162078206, 2614888103, 3248222580, 3835390401, 4022224774,
   264347078, 604807628, 770255983, 1249150122, 1555081692, 1996064986,
   2554220882, 2821834349, 2952996808, 3210313671, 3336571891, 3584528711,
   113926993, 338241895, 666307205, 773529912, 1294757372, 1396182291,
   1695183700, 1986661051, 2177026350, 2456956037, 2730485921, 2820302411,
   3259730800, 3345764771, 3516065817, 3600352804, 4094571909, 275423344,
   430227734, 506948616, 659060556, 883997877, 958139571, 1322822218,
   1537002063, 1747873779, 1955562222, 2024104815, 2227730452, 2361852424,
   2428436474, 2756734187, 3204031479, 3329325298]

/-- The eight SHA-256 initial hash words (decimal). -/
def shaH0 : List Nat :=
  [1779033703, 3144134277, 1013904242, 2773480762, 1359893119, 2600822924,
   528734635, 1541459225]

/-- Big-endian byte rendering of a number at a given width, i.e. the
`to_be_bytes` of the respective unsigned integer type. -/
def beBytes : Nat → Nat → List Byte
  | 0, _ => []
  | w + 1, n => beBytes w (n / 256) ++ [⟨n % 256, Nat.mod_lt n (by omega)⟩]

/-- SHA-256 message padding: a `0x80` byte, zeros up to 56 mod 64, then
the bit length in 8 big-endian bytes. -/
def shaPad (msg : List Byte) : List Byte :=
  msg ++ ⟨128, by omega⟩ :: List.replicate ((119 - msg.length % 64) % 64) 0
    ++ beBytes 8 (8 * msg.length)

/-- Group bytes into big-endian 32-bit words. -/
def bytesToWords : List Byte → List Nat
  | b0 :: b1 :: b2 :: b3 :: rest =>
    (((b0.val * 256 + b1.val) * 256 + b2.val) * 256 + b3.val) :: bytesToWords rest
  | _ => []

/-- Split a byte string into 64-byte blocks; the first argument is
structural fuel, at least the length of the string. -/
def toBlocksF : Nat → List Byte → List (List Byte)
  | 0, _ => []
  | _, [] => []
  | fuel + 1, b :: bs => ((b :: bs).take 64) :: toBlocksF fuel ((b :: bs).drop 64)

/-- Split a byte string into 64-byte blocks. -/
def shaBlocks (bs : List Byte) : List (List Byte) := toBlocksF bs.length bs

/-- Extend the sixteen message words of one block by the given number of
scheduled words. -/
def shaExtend : Nat → List Nat → List Nat
  | 0, ws => ws
  | k + 1, ws =>
    let t := ws.length
    shaExtend k (ws ++ [w32 (smallSigma1 (ws.getD (t - 2) 0) + ws.getD (t - 7) 0
      + smallSigma0 (ws.getD (t - 15) 0) + ws.getD (t - 16) 0)])

/-- The full 64-word message schedule of one block. -/
def shaSchedule (ws : List Nat) : List Nat := shaExtend 48 ws

/-- One SHA-256 round on the eight working words. -/
def shaRound (st : List Nat) (kw : Nat × Nat) : List Nat :=
  match st with
  | [a, b, c, d, e, f, g, h] =>
    let t1 := w32 (h + bigSigma1 e + shaCh e f g + kw.1 + kw.2)
    let t2 := w32 (bigSigma0 a + shaMaj a b c)
    [w32 (t1 + t2), a, b, c, w32 (d + t1), e, f, g]
  | other => other

/-- Compress one 64-byte block into the running hash state. -/
def shaCompress (h : List Nat) (block : List Byte) : List Nat :=
  let ws := shaSchedule (bytesToWords block)
  let final := (shaK.zip ws).foldl shaRound h
  (h.zip final).map (fun p => w32 (p.1 + p.2))

/-- SHA-256 of a byte string, as 32 bytes. -/
def sha256 (msg : List Byte) : List Byte :=
  (((shaBlocks (shaPad msg)).foldl shaCompress shaH0).map (beBytes 4)).flatten

/-! ## JSON document model

Embedding of the serde JSON data model used by the document backend
(`serde_json` values).  Objects are ordered key/value lists; the derived
deserializers locate fields by key, ignore unknown keys, and treat a
missing or null `Option` field as `None` (serde's default behaviour). -/

/-- A JSON value.  Numbers are restricted to the unsigned integers, the
only numeric fields the snapshot entities carry. -/
inductive Json where
  | null : Json
  | num : Nat → Json
  | str : String → Json
  | arr : List Json → Json
  | obj : List (String × Json) → Json

/-- Look a key up in the field list of a JSON object, first match wins. -/
def Json.lookupKey (kvs : List (String × Json)) (k : String) : Option Json :=
  match kvs with
  | [] => none
  | (k2, v) :: rest => if k2 = k then some v else Json.lookupKey rest k

/-- Decode an unsigned integer field. -/
def decNat : Json → Except String Nat
  | .num n => .ok n
  | _ => .error "expected a number"

/-- Decode a hex-string byte-array field. -/
def decBytes : Json → Except String (List Byte)
  | .str s =>
    match hexDecode s with
    | some bs => .ok bs
    | none => .error "expected a hex string"
  | _ => .error "expected a string"

/-- Decode every element of a JSON list, failing on the first bad
element, as the derived `Vec<T>` deserializer does. -/
def decListWith (dec : Json → Except String α) : List Json → Except String (List α)
  | [] => .ok []
  | j :: rest =>
    match dec j, decListWith dec rest with
    | .ok a, .ok as2 => .ok (a :: as2)
    | .error e, _ => .error e
    | .ok _, .error e => .error e

/-- Decode a JSON array field into a list. -/
def decArr (dec : Json → Except String α) : Json → Except String (List α)
  | .arr js => decListWith dec js
  | _ => .error "expected an array"

/-- Decode every element of a JSON list, passing the element position to
the element decoder; models a `Vec<T>` deserializer whose element
deserializer consumes one ambient RNG draw per element. -/
def decListIdx (dec : Nat → Json → Except String α) : Nat → List Json → Except String (List α)
  | _, [] => .ok []
  | i, j :: rest =>
    match dec i j, decListIdx dec (i + 1) rest with
    | .ok a, .ok as2 => .ok (a :: as2)
    | .error e, _ => .error e
    | .ok _, .error e => .error e

/-- Decode a JSON array field into a list, element decoders indexed by
position. -/
def decArrIdx (dec : Nat → Json → Except String α) : Json → Except String (List α)
  | .arr js => decListIdx dec 0 js
  | _ => .error "expected an array"

/-- Decode a two-element JSON array into a pair, as the derived tuple
deserializer does. -/
def decPairOf (d1 : Json → Except String α) (d2 : Json → Except String β) :
    Json → Except String (α × β)
  | .arr [j1, j2] =>
    match d1 j1, d2 j2 with
    | .ok a, .ok b => .ok (a, b)
    | .error e, _ => .error e
    | .ok _, .error e => .error e
  | _ => .error "expected a pair"

/-- Decode a required field: a missing key is an error. -/
def decReqField (kvs : List (String × Json)) (k : String)
    (dec : Json → Except String α) : Except String α :=
  match Json.lookupKey kvs k with
  | some v => dec v
  | none => .error ("missing field " ++ k)

/-- Decode a present `Option` field value: null is `None`, anything else
is decoded and wrapped in `Some`. -/
def decNullable (dec : Json → Except String α) : Json → Except String (Option α)
  | .null => .ok none
  | v =>
    match dec v with
    | .ok a => .ok (some a)
    | .error e => .error e

/-- Decode an `Option` field: a missing key or a null value is `None`. -/
def decOptField (kvs : List (String × Json)) (k : String)
    (dec : Json → Except String α) : Except String (Option α) :=
  match Json.lookupKey kvs k with
  | none => .ok none
  | some v => decNullable dec v

/-- Decode a field carrying a `serde(default = ...)` attribute: a
missing key yields the supplied default value. -/
def decDefField (kvs : List (String × Json)) (k : String)
    (dec : Json → Except String α) (dflt : α) : Except String α :=
  match Json.lookupKey kvs k with
  | none => .ok dflt
  | some v => dec v

/-- Encode a list field. -/
def encList (enc : α → Json) (xs : List α) : Json := .arr (xs.map enc)

/-- Encode a byte-array field as hexadecimal text. -/
def encBytes (bs : List Byte) : Json := .str (hexEncode bs)

/-- Encode a pair as a two-element JSON array. -/
def encPairOf (e1 : α → Json) (e2 : β → Json) (p : α × β) : Json := .arr [e1 p.1, e2 p.2]

/-- Encode an `Option` field under `skip_serializing_none`: an absent
value contributes no key/value pair at all. -/
def optFieldEnc (k : String) (enc : α → Json) : Option α → List (String × Json)
  | none => []
  | some a => [(k, enc a)]

theorem decNat_num (n : Nat) : decNat (Json.num n) = .ok n := rfl

theorem decBytes_encBytes (bs : List Byte) : decBytes (encBytes bs) = .ok bs := by
  simp [decBytes, encBytes, hexDecode_hexEncode]

theorem decListWith_map {dec : Json → Except String α} {enc : α → Json}
    (h : ∀ a, dec (enc a) = .ok a) (xs : List α) :
    decListWith dec (xs.map enc) = .ok xs := by
  induction xs with
  | nil => rfl
  | cons a rest ih => simp [decListWith, h, ih]

theorem decArr_encList {dec : Json → Except String α} {enc : α → Json}
    (h : ∀ a, dec (enc a) = .ok a) (xs : List α) :
    decArr dec (encList enc xs) = .ok xs := by
  simp [decArr, encList, decListWith_map h]

theorem decListIdx_map {dec : Nat → Json → Except String α} {enc : α → Json}
    (h : ∀ i a, dec i (enc a) = .ok a) (xs : List α) :
    ∀ i, decListIdx dec i (xs.map enc) = .ok xs := by
  induction xs with
  | nil => intro i; rfl
  | cons a rest ih => intro i; simp [decListIdx, h, ih]

theorem decArrIdx_encList {dec : Nat → Json → Except String α} {enc : α → Json}
    (h : ∀ i a, dec i (enc a) = .ok a) (xs : List α) :
    decArrIdx dec (encList enc xs) = .ok xs := by
  simp [decArrIdx, encList, decListIdx_map h]

theorem decPairOf_encPairOf {d1 : Json → Except String α} {d2 : Json → Except String β}
    {e1 : α → Json} {e2 : β → Json}
    (h1 : ∀ a, d1 (e1 a) = .ok a) (h2 : ∀ b, d2 (e2 b) = .ok b) (p : α × β) :
    decPairOf d1 d2 (encPairOf e1 e2 p) = .ok p := by
  simp [decPairOf, encPairOf, h1, h2]

/-! ## The spendable-coin entity (`config/coin.rs`) -/

/-- A transaction origin reference (`fuel_tx::UtxoId`): origin
transaction identifier plus output position. -/
structure UtxoId where
  tx_id : Bytes32
  output_index : Nat
deriving DecidableEq

/-- A transaction pointer (`fuel_tx::TxPointer`): originating block
height plus intra-block transaction index. -/
structure TxPointer where
  block_height : Nat
  tx_index : Nat
deriving DecidableEq

/-- The spendable-coin entity, from `config/coin.rs` (`struct
CoinConfig`).  Every field is a plain value there: `tx_id : Bytes32`
carries `serde(default = "random_tx_id")`, `output_index : u8` carries
`serde(default = "Default::default")`, and `tx_pointer_block_height :
BlockHeight`, `tx_pointer_tx_idx : u16`, `maturity : BlockHeight`,
`owner : Address`, `amount : u64`, `asset_id : AssetId` have no default
and are required on deserialization. -/
structure CoinConfig where
  tx_id : Bytes32
  output_index : Nat
  tx_pointer_block_height : Nat
  tx_pointer_tx_idx : Nat
  maturity : Nat
  owner : Address
  amount : Nat
  asset_id : AssetId
deriving DecidableEq

/-- Derived origin reference of a coin (`CoinConfig::utxo_id`). -/
def CoinConfig.utxo_id (c : CoinConfig) : UtxoId :=
  ⟨c.tx_id, c.output_index⟩

/-- Derived transaction pointer of a coin (`CoinConfig::tx_pointer`). -/
def CoinConfig.tx_pointer (c : CoinConfig) : TxPointer :=
  ⟨c.tx_pointer_block_height, c.tx_pointer_tx_idx⟩

/-- Serialization of a coin record: every field is emitted, in
declaration order. -/
def CoinConfig.toJson (c : CoinConfig) : Json :=
  .obj [("tx_id", encBytes c.tx_id),
        ("output_index", .num c.output_index),
        ("tx_pointer_block_height", .num c.tx_pointer_block_height),
        ("tx_pointer_tx_idx", .num c.tx_pointer_tx_idx),
        ("maturity", .num c.maturity),
        ("owner", encBytes c.owner),
        ("amount", .num c.amount),
        ("asset_id", encBytes c.asset_id)]

/-- Deserialization of a coin record.  `fresh` stands for the value the
ambient RNG would produce for `random_tx_id()`; it is consumed only when
the `tx_id` key is missing.  A missing `output_index` defaults to 0; the
remaining fields are required. -/
def CoinConfig.fromJson (fresh : Bytes32) : Json → Except String CoinConfig
  | .obj kvs => do
    let tx_id ← decDefField kvs "tx_id" decBytes fresh
    let output_index ← decDefField kvs "output_index" decNat 0
    let tx_pointer_block_height ← decReqField kvs "tx_pointer_block_height" decNat
    let tx_pointer_tx_idx ← decReqField kvs "tx_pointer_tx_idx" decNat
    let maturity ← decReqField kvs "maturity" decNat
    let owner ← decReqField kvs "owner" decBytes
    let amount ← decReqField kvs "amount" decNat
    let asset_id ← decReqField kvs "asset_id" decBytes
    pure { tx_id, output_index, tx_pointer_block_height, tx_pointer_tx_idx,
           maturity, owner, amount, asset_id }
  | _ => .error "expected an object"

theorem Except.ok_bind {ε α β : Type} (a : α) (f : α → Except ε β) :
    (Except.ok a : Except ε α) >>= f = f a := rfl

theorem Except.error_bind {ε α β : Type} (e : ε) (f : α → Except ε β) :
    (Except.error e : Except ε α) >>= f = .error e := rfl



theorem coinConfig_roundtrip (fresh : Bytes32) (c : CoinConfig) :
    CoinConfig.fromJson fresh (CoinConfig.toJson c) = .ok c := by
  simp [CoinConfig.fromJson, CoinConfig.toJson, decDefField, decReqField,
    Json.lookupKey, decBytes_encBytes, decNat, Except.ok_bind]

/-! ## Contract and message entities -/

/-- Modelled from the spec: the contract entity record.  Its defining
file (`config/contract.rs`) is not under src; the spec (section 3)
treats it as an opaque leaf record with nested per-contract storage and
balance entries, and the field list follows the construction in
state.rs's tests (`test_config_contract`): `contract_id`, `code`,
`salt`, optional `state` (list of key/value pairs), optional `balances`
(list of asset/amount pairs), optional `tx_id`, `output_index`,
`tx_pointer_block_height` and `tx_pointer_tx_idx`. -/
structure ContractConfig where
  contract_id : Bytes32
  code : List Byte
  salt : Bytes32
  state : Option (List (Bytes32 × Bytes32))
  balances : Option (List (AssetId × Nat))
  tx_id : Option Bytes32
  output_index : Option Nat
  tx_pointer_block_height : Option Nat
  tx_pointer_tx_idx : Option Nat
deriving DecidableEq

/-- Serialization of a contract record; absent optional fields omit
their key (spec section 9: "omit key when absent"). -/
def ContractConfig.toJson (c : ContractConfig) : Json :=
  .obj ([("contract_id", encBytes c.contract_id),
         ("code", encBytes c.code),
         ("salt", encBytes c.salt)]
    ++ optFieldEnc "state" (encList (encPairOf encBytes encBytes)) c.state
    ++ optFieldEnc "balances" (encList (encPairOf encBytes Json.num)) c.balances
    ++ optFieldEnc "tx_id" encBytes c.tx_id
    ++ optFieldEnc "output_index" Json.num c.output_index
    ++ optFieldEnc "tx_pointer_block_height" Json.num c.tx_pointer_block_height
    ++ optFieldEnc "tx_pointer_tx_idx" Json.num c.tx_pointer_tx_idx)

/-- Deserialization of a contract record; a missing optional key reads
back as `None`. -/
def ContractConfig.fromJson : Json → Except String ContractConfig
  | .obj kvs => do
    let contract_id ← decReqField kvs "contract_id" decBytes
    let code ← decReqField kvs "code" decBytes
    let salt ← decReqField kvs "salt" decBytes
    let state ← decOptField kvs "state" (decArr (decPairOf decBytes decBytes))
    let balances ← decOptField kvs "balances" (decArr (decPairOf decBytes decNat))
    let tx_id ← decOptField kvs "tx_id" decBytes
    let output_index ← decOptField kvs "output_index" decNat
    let tx_pointer_block_height ← decOptField kvs "tx_pointer_block_height" decNat
    let tx_pointer_tx_idx ← decOptField kvs "tx_pointer_tx_idx" decNat
    pure { contract_id, code, salt, state, balances, tx_id, output_index,
           tx_pointer_block_height, tx_pointer_tx_idx }
  | _ => .error "expected an object"

theorem decNullable_encBytes (bs : List Byte) :
    decNullable decBytes (encBytes bs) = .ok (some bs) := by
  simp [decNullable, encBytes, decBytes, hexDecode_hexEncode]

theorem decNullable_num (n : Nat) : decNullable decNat (Json.num n) = .ok (some n) := rfl

theorem decNullable_arr {dec : Json → Except String α} {enc : α → Json}
    (h : ∀ a, dec (enc a) = .ok a) (xs : List α) :
    decNullable (decArr dec) (encList enc xs) = .ok (some xs) := by
  simp [decNullable, encList, decArr, decListWith_map h]

theorem decNullable_statePairs (xs : List (Bytes32 × Bytes32)) :
    decNullable (decArr (decPairOf decBytes decBytes))
      (encList (encPairOf encBytes encBytes) xs) = .ok (some xs) :=
  decNullable_arr (decPairOf_encPairOf decBytes_encBytes decBytes_encBytes) xs

theorem decNullable_balancePairs (xs : List (AssetId × Nat)) :
    decNullable (decArr (decPairOf decBytes decNat))
      (encList (encPairOf encBytes Json.num) xs) = .ok (some xs) :=
  decNullable_arr (decPairOf_encPairOf decBytes_encBytes decNat_num) xs

set_option maxHeartbeats 1000000 in
theorem contractConfig_roundtrip (c : ContractConfig) :
    ContractConfig.fromJson (ContractConfig.toJson c) = .ok c := by
  obtain ⟨cid, code, salt, st, bal, txid, oi, bh, ti⟩ := c
  cases st <;> cases bal <;> cases txid <;> cases oi <;> cases bh <;> cases ti <;>
    simp only [ContractConfig.fromJson, ContractConfig.toJson, optFieldEnc,
      List.cons_append, List.nil_append, List.append_nil, decReqField, decOptField,
      Json.lookupKey, decBytes_encBytes, decNullable_encBytes, decNullable_num,
      decNullable_statePairs, decNullable_balancePairs, Except.ok_bind,
      reduceIte, String.reduceEq] <;> rfl

/-- Modelled from the spec: the inbound-message entity record.  Its
defining file (`config/message.rs`) is not under src; the field list
follows the construction in state.rs's tests (`test_message_config`):
`sender`, `recipient`, `nonce`, `amount`, `data` and `da_height`. -/
structure MessageConfig where
  sender : Address
  recipient : Address
  nonce : Nat
  amount : Nat
  data : List Byte
  da_height : Nat
deriving DecidableEq

/-- Serialization of a message record. -/
def MessageConfig.toJson (m : MessageConfig) : Json :=
  .obj [("sender", encBytes m.sender),
        ("recipient", encBytes m.recipient),
        ("nonce", .num m.nonce),
        ("amount", .num m.amount),
        ("data", encBytes m.data),
        ("da_height", .num m.da_height)]

/-- Deserialization of a message record; every field is required. -/
def MessageConfig.fromJson : Json → Except String MessageConfig
  | .obj kvs => do
    let sender ← decReqField kvs "sender" decBytes
    let recipient ← decReqField kvs "recipient" decBytes
    let nonce ← decReqField kvs "nonce" decNat
    let amount ← decReqField kvs "amount" decNat
    let data ← decReqField kvs "data" decBytes
    let da_height ← decReqField kvs "da_height" decNat
    pure { sender, recipient, nonce, amount, data, da_height }
  | _ => .error "expected an object"

theorem messageConfig_roundtrip (m : MessageConfig) :
    MessageConfig.fromJson (MessageConfig.toJson m) = .ok m := by
  simp [MessageConfig.fromJson, MessageConfig.toJson, decReqField,
    Json.lookupKey, decBytes_encBytes, decNat, Except.ok_bind]

/-! ## The state aggregate (`config/state.rs`) -/

/-- The snapshot aggregate, from `config/state.rs` (`struct
StateConfig`): three independent optional collections, one per entity
kind.  The struct carries `skip_serializing_none`, so an absent
collection serializes without its key, while a present-but-empty one
serializes as an empty array. -/
structure StateConfig where
  coins : Option (List CoinConfig) := none
  contracts : Option (List ContractConfig) := none
  messages : Option (List MessageConfig) := none
deriving DecidableEq

/-- Serialization of the aggregate under `skip_serializing_none`. -/
def StateConfig.toJson (s : StateConfig) : Json :=
  .obj (optFieldEnc "coins" (encList CoinConfig.toJson) s.coins
    ++ optFieldEnc "contracts" (encList ContractConfig.toJson) s.contracts
    ++ optFieldEnc "messages" (encList MessageConfig.toJson) s.messages)

/-- Deserialization of the aggregate.  `fresh` is the explicit model of
the ambient RNG consumed by `random_tx_id`: the coin at position `i` of
the coins array draws `fresh i` if (and only if) its `tx_id` key is
missing. -/
def StateConfig.fromJson (fresh : Nat → Bytes32) : Json → Except String StateConfig
  | .obj kvs => do
    let coins ← decOptField kvs "coins" (decArrIdx (fun i => CoinConfig.fromJson (fresh i)))
    let contracts ← decOptField kvs "contracts" (decArr ContractConfig.fromJson)
    let messages ← decOptField kvs "messages" (decArr MessageConfig.fromJson)
    pure { coins, contracts, messages }
  | _ => .error "expected an object"

theorem decNullable_coins (fresh : Nat → Bytes32) (xs : List CoinConfig) :
    decNullable (decArrIdx (fun i => CoinConfig.fromJson (fresh i)))
      (encList CoinConfig.toJson xs) = .ok (some xs) := by
  simp [decNullable, encList, decArrIdx,
    decListIdx_map (fun i a => coinConfig_roundtrip (fresh i) a)]

theorem decNullable_contracts (xs : List ContractConfig) :
    decNullable (decArr ContractConfig.fromJson)
      (encList ContractConfig.toJson xs) = .ok (some xs) :=
  decNullable_arr contractConfig_roundtrip xs

theorem decNullable_messages (xs : List MessageConfig) :
    decNullable (decArr MessageConfig.fromJson)
      (encList MessageConfig.toJson xs) = .ok (some xs) :=
  decNullable_arr messageConfig_roundtrip xs

theorem stateConfig_roundtrip (fresh : Nat → Bytes32) (s : StateConfig) :
    StateConfig.fromJson fresh (StateConfig.toJson s) = .ok s := by
  obtain ⟨cs, cts, ms⟩ := s
  cases cs <;> cases cts <;> cases ms <;>
    simp only [StateConfig.fromJson, StateConfig.toJson, optFieldEnc,
      List.cons_append, List.nil_append, List.append_nil, decOptField,
      Json.lookupKey, decNullable_coins, decNullable_contracts,
      decNullable_messages, Except.ok_bind, reduceIte, String.reduceEq] <;> rfl

/-- C1: for every state aggregate, serializing with the document backend
and deserializing reproduces the original aggregate exactly — per-kind
ordering is preserved (the collections come back as the very same
lists), and the absent/empty distinction survives: an absent kind
serializes without its key and reloads as `none`, a present-but-empty
kind serializes as an empty array and reloads as `some []`. -/
theorem c1_document_roundtrip :
    (∀ (s : StateConfig) (fresh : Nat → Bytes32),
      StateConfig.fromJson fresh (StateConfig.toJson s) = .ok s)
    ∧ StateConfig.toJson { coins := none, contracts := none, messages := none } = .obj []
    ∧ StateConfig.toJson { coins := some [], contracts := none, messages := none }
        = .obj [("coins", .arr [])]
    ∧ (∀ fresh : Nat → Bytes32, StateConfig.fromJson fresh (.obj [])
        = .ok { coins := none, contracts := none, messages := none })
    ∧ (∀ fresh : Nat → Bytes32, StateConfig.fromJson fresh (.obj [("coins", .arr [])])
        = .ok { coins := some [], contracts := none, messages := none }) :=
  ⟨fun s fresh => stateConfig_roundtrip fresh s, rfl, rfl, fun _ => rfl, fun _ => rfl⟩

/-! ## Genesis commitment (`config/coin.rs`, `impl GenesisCommitment for
CompressedCoin`) -/

/-- Modelled from the spec: the compressed spendable-output entity
(`fuel_core_types::entities::coins::coin::CompressedCoin`), whose
defining crate is not under src.  Spec section 4.5 names the values its
commitment hashes — owner, amount, asset identifier, maturity and the
transaction pointer — and those are the fields the `root()`
implementation under src reads through getters. -/
structure CompressedCoin where
  owner : Address
  amount : Nat
  asset_id : AssetId
  maturity : Nat
  tx_pointer : TxPointer
deriving DecidableEq

/-- Modelled from the spec: `fuel_crypto::Hasher` (not under src), the
"single cryptographic hash accumulator" of spec section 4.5: it
accumulates chained byte strings and finalizes to their SHA-256
digest. -/
structure Hasher where
  acc : List Byte

/-- The empty accumulator (`Hasher::default()`). -/
def Hasher.default : Hasher := ⟨[]⟩

/-- Feed bytes into the accumulator (`Hasher::chain`). -/
def Hasher.chain (h : Hasher) (bytes : List Byte) : Hasher := ⟨h.acc ++ bytes⟩

/-- Finalize the accumulator to a digest (`Hasher::finalize`). -/
def Hasher.finalize (h : Hasher) : MerkleRoot := sha256 h.acc

/-- The genesis commitment of a compressed coin, from `config/coin.rs`
(`GenesisCommitment::root`): owner, amount (8-byte big-endian), asset
identifier, maturity (4-byte big-endian, a u32 block height), the
transaction pointer's block height (4-byte big-endian) and transaction
index (2-byte big-endian) are chained into one hasher and finalized. -/
def CompressedCoin.root (c : CompressedCoin) : Except String MerkleRoot :=
  let owner := c.owner
  let amount := c.amount
  let asset_id := c.asset_id
  let maturity := c.maturity
  let tx_pointer := c.tx_pointer
  let coin_hash :=
    ((((((Hasher.default.chain owner).chain (beBytes 8 amount)).chain asset_id).chain
      (beBytes 4 maturity)).chain (beBytes 4 tx_pointer.block_height)).chain
      (beBytes 2 tx_pointer.tx_index)).finalize
  .ok coin_hash

/-- C2: the commitment digest of a spendable-output entity is exactly
the hash-accumulator digest of the concatenation, in this order, of the
owner bytes, the amount in 8-byte big-endian, the asset identifier
bytes, the maturity in 4-byte big-endian, the transaction pointer's
block height in 4-byte big-endian and its intra-block index in 2-byte
big-endian; the entity's fields are exhaustively listed by this byte
string, so no other data contributes to the digest. -/
theorem c2_coin_root_bytes (c : CompressedCoin) :
    CompressedCoin.root c = .ok (sha256 (c.owner ++ beBytes 8 c.amount ++ c.asset_id
      ++ beBytes 4 c.maturity ++ beBytes 4 c.tx_pointer.block_height
      ++ beBytes 2 c.tx_pointer.tx_index)) := by
  simp [CompressedCoin.root, Hasher.default, Hasher.chain, Hasher.finalize,
    List.append_assoc]

/-- C4: the commitment is a pure function of the hashed field values:
any two entities agreeing on owner, amount, asset identifier, maturity
and transaction pointer receive the same digest, and being a function of
the entity alone it cannot depend on ambient state (two-run
determinism). -/
theorem c4_root_deterministic (c1 c2 : CompressedCoin)
    (howner : c1.owner = c2.owner) (hamount : c1.amount = c2.amount)
    (hasset : c1.asset_id = c2.asset_id) (hmaturity : c1.maturity = c2.maturity)
    (htxp : c1.tx_pointer = c2.tx_pointer) :
    CompressedCoin.root c1 = CompressedCoin.root c2 := by
  obtain ⟨o1, a1, s1, m1, t1⟩ := c1
  obtain ⟨o2, a2, s2, m2, t2⟩ := c2
  simp only at howner hamount hasset hmaturity htxp
  subst howner hamount hasset hmaturity htxp
  rfl

/-- Witness for C4: two syntactically distinct entity records with equal
field values receive equal digests. -/
theorem c4_root_deterministic_witness :
    CompressedCoin.root ⟨[1, 2], 300, [7], 5, ⟨9, 11⟩⟩
      = CompressedCoin.root ⟨[1, 1 + 1], 100 * 3, [7], 2 + 3, ⟨9, 11⟩⟩ :=
  c4_root_deterministic _ _ rfl rfl rfl rfl rfl

/-! ## Building the aggregate from the chain database
(`config/state.rs`, `generate_state_config` and `trait ChainConfigDb`) -/

/-- An opaque storage-layer error (`fuel_core_storage::Error`); the
codec never inspects or constructs one, it only propagates them. -/
structure StorageError where
  msg : String
deriving DecidableEq

/-- The chain database collaborator (`trait ChainConfigDb`): an
implementation is modelled by the results its four read operations
produce.  Each collection fetch returns an optional collection
(`StorageResult<Option<Vec<_>>>`), `none` meaning "not requested of this
database"; the block height fetch is non-optional. -/
structure ChainConfigDb where
  get_coin_config : Except StorageError (Option (List CoinConfig))
  get_contract_config : Except StorageError (Option (List ContractConfig))
  get_message_config : Except StorageError (Option (List MessageConfig))
  get_block_height : Except StorageError Nat

/-- Build the aggregate from the database
(`StateConfig::generate_state_config`): each fetch result is moved into
the corresponding aggregate field, with `?` propagating the first
storage error. -/
def StateConfig.generate_state_config (db : ChainConfigDb) : Except StorageError StateConfig := do
  let coins ← db.get_coin_config
  let contracts ← db.get_contract_config
  let messages ← db.get_message_config
  pure { coins, contracts, messages }

/-- C5: `generate_state_config` passes each entity-kind fetch result
through unchanged — a `none` stays `none`, never coerced to an empty
collection, and a `some` collection is stored exactly; if any fetch
fails, that storage error is propagated and no aggregate is produced. -/
theorem c5_generate_state_config_passthrough (db : ChainConfigDb) :
    (∀ cs cts ms, db.get_coin_config = .ok cs → db.get_contract_config = .ok cts →
      db.get_message_config = .ok ms →
      StateConfig.generate_state_config db
        = .ok { coins := cs, contracts := cts, messages := ms })
    ∧ (∀ e, db.get_coin_config = .error e →
      StateConfig.generate_state_config db = .error e)
    ∧ (∀ cs e, db.get_coin_config = .ok cs → db.get_contract_config = .error e →
      StateConfig.generate_state_config db = .error e)
    ∧ (∀ cs cts e, db.get_coin_config = .ok cs → db.get_contract_config = .ok cts →
      db.get_message_config = .error e →
      StateConfig.generate_state_config db = .error e) := by
  refine ⟨?_, ?_, ?_, ?_⟩
  · intro cs cts ms h1 h2 h3
    simp [StateConfig.generate_state_config, h1, h2, h3, Except.ok_bind]
  · intro e h1
    simp [StateConfig.generate_state_config, h1, Except.error_bind]
  · intro cs e h1 h2
    simp [StateConfig.generate_state_config, h1, h2, Except.ok_bind, Except.error_bind]
  · intro cs cts e h1 h2 h3
    simp [StateConfig.generate_state_config, h1, h2, h3, Except.ok_bind, Except.error_bind, Except.map_error]

/-- Witness for C5: on a database answering `some []` coins, `none`
contracts and `none` messages, the aggregate stores exactly those three
results; on one whose coin fetch fails, the error is propagated. -/
theorem c5_generate_state_config_witness :
    StateConfig.generate_state_config ⟨.ok (some []), .ok none, .ok none, .ok 0⟩
      = .ok { coins := some [], contracts := none, messages := none }
    ∧ StateConfig.generate_state_config
        ⟨.error ⟨"io"⟩, .ok none, .ok none, .ok 0⟩ = .error ⟨"io"⟩ :=
  ⟨(c5_generate_state_config_passthrough ⟨.ok (some []), .ok none, .ok none, .ok 0⟩).1
      (some []) none none rfl rfl rfl,
    (c5_generate_state_config_passthrough ⟨.error ⟨"io"⟩, .ok none, .ok none, .ok 0⟩).2.1
      ⟨"io"⟩ rfl⟩

/-! ## Loading the aggregate from disk (`config/state.rs`,
`StateConfig::load_from_file`) -/

/-- An error reported by `load_from_file`, i.e. an `anyhow::Error`:
either a bare propagated error (the `?` on `std::fs::read`) or an error
wrapped with an added context line (`.context(...)`). -/
inductive LoadError where
  | io (msg : String)
  | context (ctx : String) (msg : String)
deriving DecidableEq

/-- Whether a load error carries an added context line. -/
def LoadError.hasAddedContext : LoadError → Bool
  | .context _ _ => true
  | .io _ => false

/-- Load the aggregate from a directory
(`StateConfig::load_from_file`).  The filesystem (`std::fs::read`) and
the byte-level JSON parser (the front half of
`serde_json::from_slice`) are external collaborators passed as
functions; `fresh` models the ambient RNG exactly as in
`StateConfig.fromJson`.  The code reads the fixed-named
`chain_state.json` under the given path, propagates a read failure via
`?` with no added context, and wraps a parse/deserialize failure with
the context line `"an error occurred while loading the chain parameters
file"`. -/
def StateConfig.load_from_file (readFile : String → Except String (List Byte))
    (parse : List Byte → Except String Json) (fresh : Nat → Bytes32)
    (path : String) : Except LoadError StateConfig :=
  match readFile (path ++ "/chain_state.json") with
  | .error e => .error (.io e)
  | .ok contents =>
    match (parse contents).bind (StateConfig.fromJson fresh) with
    | .error e =>
      .error (.context "an error occurred while loading the chain parameters file" e)
    | .ok cfg => .ok cfg

/-- Counterexample to C8 as stated: a failure to read the file is NOT
reported with added context — on a filesystem whose read fails with
"boom", `load_from_file` returns the bare propagated I/O error, which
carries no context describing the failing operation. -/
theorem c8_counterexample_read_error_has_no_context :
    StateConfig.load_from_file (fun _ => .error "boom") (fun _ => .error "unused")
        (fun _ => zeroBytes32) "somedir" = .error (.io "boom")
    ∧ LoadError.hasAddedContext (.io "boom") = false :=
  ⟨rfl, rfl⟩

/-- C8 (amended): `load_from_file` reads the fixed-named
`chain_state.json` from the given directory; a read failure is
propagated as the underlying I/O error with no added context, a
parse/deserialize failure is reported with the added context line
`"an error occurred while loading the chain parameters file"`, and on
success the parsed aggregate is returned exactly — a failure is never
silently replaced by a default aggregate. -/
theorem c8_load_from_file_amended (readFile : String → Except String (List Byte))
    (parse : List Byte → Except String Json) (fresh : Nat → Bytes32) (path : String) :
    (∀ e, readFile (path ++ "/chain_state.json") = .error e →
      StateConfig.load_from_file readFile parse fresh path = .error (.io e))
    ∧ (∀ bs e, readFile (path ++ "/chain_state.json") = .ok bs →
      (parse bs).bind (StateConfig.fromJson fresh) = .error e →
      StateConfig.load_from_file readFile parse fresh path
        = .error (.context "an error occurred while loading the chain parameters file" e))
    ∧ (∀ bs s, readFile (path ++ "/chain_state.json") = .ok bs →
      (parse bs).bind (StateConfig.fromJson fresh) = .ok s →
      StateConfig.load_from_file readFile parse fresh path = .ok s) := by
  refine ⟨?_, ?_, ?_⟩
  · intro e h
    simp [StateConfig.load_from_file, h]
  · intro bs e h1 h2
    simp [StateConfig.load_from_file, h1, h2]
  · intro bs s h1 h2
    simp [StateConfig.load_from_file, h1, h2]

/-- Witness for C8 (amended): on a filesystem holding an empty JSON
object document, loading succeeds with the all-absent aggregate; the
parse result is passed through, not defaulted. -/
theorem c8_load_from_file_amended_witness :
    StateConfig.load_from_file (fun _ => .ok []) (fun _ => .ok (.obj []))
        (fun _ => zeroBytes32) "somedir"
      = .ok { coins := none, contracts := none, messages := none } :=
  (c8_load_from_file_amended (fun _ => .ok []) (fun _ => .ok (.obj []))
    (fun _ => zeroBytes32) "somedir").2.2 [] _ rfl rfl

/-! ## The batch abstraction and the document backend's producer
(`config/codec.rs`) -/

/-- One transfer chunk, from `config/codec.rs` (`struct Batch<T>`): an
ordered entity collection plus its logical position.  The source names
the position `group_index`; the spec calls it `chunk_index`. -/
structure Batch (T : Type) where
  data : List T
  group_index : Nat
deriving DecidableEq

/-- Slice a collection into successive chunks of the given length (the
final chunk holding the remainder), with explicit structural fuel, at
least the collection length. -/
def sliceChunksF (L : Nat) : Nat → List α → List (List α)
  | 0, _ => []
  | _, [] => []
  | fuel + 1, x :: xs => (x :: xs.take (L - 1)) :: sliceChunksF L fuel (xs.drop (L - 1))

/-- Slice a collection into successive chunks of the given length. -/
def sliceChunks (L : Nat) (xs : List α) : List (List α) := sliceChunksF L xs.length xs

/-- Modelled from the spec: the document backend's batch producer
(`JsonBatchReader`, not under src; only the `Batch`/`BatchReader`
declarations and the commented tests are).  Spec section 4.2, read path:
the producer re-slices each entity kind's full collection into
successive chunks of a caller-specified length, assigning the chunk
index 0, 1, 2, … in slice order; the final chunk holds the remainder,
and an empty collection produces zero chunks. -/
def jsonBatches (xs : List α) (L : Nat) : List (Batch α) :=
  (sliceChunks L xs).enum.map (fun p => { data := p.2, group_index := p.1 })

theorem sliceChunksF_fuel (L : Nat) : ∀ (f1 f2 : Nat) (xs : List α),
    xs.length ≤ f1 → xs.length ≤ f2 → sliceChunksF L f1 xs = sliceChunksF L f2 xs := by
  intro f1
  induction f1 with
  | zero =>
    intro f2 xs h1 _
    have : xs = [] := List.length_eq_zero.mp (by omega)
    subst this
    cases f2 <;> rfl
  | succ f1 ih =>
    intro f2 xs h1 h2
    match xs with
    | [] => cases f2 <;> rfl
    | x :: xs =>
      match f2 with
      | 0 => simp at h2
      | f2 + 1 =>
        simp only [sliceChunksF]
        congr 1
        exact ih f2 (xs.drop (L - 1)) (by simp at h1 ⊢; omega) (by simp at h2 ⊢; omega)

theorem sliceChunks_cons (L : Nat) (x : α) (xs : List α) :
    sliceChunks L (x :: xs) = (x :: xs.take (L - 1)) :: sliceChunks L (xs.drop (L - 1)) := by
  show sliceChunksF L (x :: xs).length (x :: xs) = _
  simp only [List.length_cons, sliceChunksF]
  congr 1
  exact sliceChunksF_fuel L xs.length (xs.drop (L - 1)).length (xs.drop (L - 1))
    (by simp) (le_refl _)

theorem sliceChunks_eq_nil_iff (L : Nat) (xs : List α) :
    sliceChunks L xs = [] ↔ xs = [] := by
  match xs with
  | [] => simp [sliceChunks, sliceChunksF]
  | x :: xs => simp [sliceChunks_cons]

theorem sliceChunks_flatten_aux (L : Nat) : ∀ (n : Nat) (xs : List α), xs.length ≤ n →
    (sliceChunks L xs).flatten = xs := by
  intro n
  induction n with
  | zero =>
    intro xs h
    have : xs = [] := List.length_eq_zero.mp (by omega)
    subst this
    rfl
  | succ n ih =>
    intro xs h
    match xs with
    | [] => rfl
    | x :: xs =>
      rw [sliceChunks_cons]
      simp only [List.flatten_cons]
      rw [ih (xs.drop (L - 1)) (by simp at h ⊢; omega)]
      simp [List.take_append_drop]

theorem sliceChunks_flatten (L : Nat) (xs : List α) : (sliceChunks L xs).flatten = xs :=
  sliceChunks_flatten_aux L xs.length xs (le_refl _)

theorem sliceChunks_mem_length_aux (L : Nat) (hL : 0 < L) :
    ∀ (n : Nat) (xs : List α), xs.length ≤ n →
    ∀ ch ∈ sliceChunks L xs, 0 < ch.length ∧ ch.length ≤ L := by
  intro n
  induction n with
  | zero =>
    intro xs h ch hch
    have : xs = [] := List.length_eq_zero.mp (by omega)
    subst this
    simp [sliceChunks, sliceChunksF] at hch
  | succ n ih =>
    intro xs h ch hch
    cases xs with
    | nil => simp [sliceChunks, sliceChunksF] at hch
    | cons x xs =>
      rw [sliceChunks_cons, List.mem_cons] at hch
      rcases hch with hch | hch
      · subst hch
        simp only [List.length_cons, List.length_take]
        omega
      · exact ih (xs.drop (L - 1)) (by simp at h ⊢; omega) ch hch

theorem sliceChunks_mem_length (L : Nat) (hL : 0 < L) (xs : List α) :
    ∀ ch ∈ sliceChunks L xs, 0 < ch.length ∧ ch.length ≤ L :=
  sliceChunks_mem_length_aux L hL xs.length xs (le_refl _)

theorem sliceChunks_dropLast_length_aux (L : Nat) (hL : 0 < L) :
    ∀ (n : Nat) (xs : List α), xs.length ≤ n →
    ∀ ch ∈ (sliceChunks L xs).dropLast, ch.length = L := by
  intro n
  induction n with
  | zero =>
    intro xs h ch hch
    have : xs = [] := List.length_eq_zero.mp (by omega)
    subst this
    simp [sliceChunks, sliceChunksF] at hch
  | succ n ih =>
    intro xs h ch hch
    cases xs with
    | nil => simp [sliceChunks, sliceChunksF] at hch
    | cons x xs =>
      rw [sliceChunks_cons] at hch
      rcases hrest : sliceChunks L (xs.drop (L - 1)) with _ | ⟨r, rs⟩
      · rw [hrest] at hch
        simp at hch
      · rw [hrest] at hch
        rw [List.dropLast_cons₂, List.mem_cons] at hch
        rcases hch with hch | hch
        · subst hch
          have hne : xs.drop (L - 1) ≠ [] := by
            intro hnil
            rw [hnil] at hrest
            simp [sliceChunks, sliceChunksF] at hrest
          have hlen : L - 1 < xs.length := by
            rcases Nat.lt_or_ge (L - 1) xs.length with hlt | hge
            · exact hlt
            · exact absurd (List.drop_eq_nil_of_le hge) hne
          simp only [List.length_cons, List.length_take]
          omega
        · rw [← hrest] at hch
          exact ih (xs.drop (L - 1)) (by simp at h ⊢; omega) ch hch

theorem sliceChunks_dropLast_length (L : Nat) (hL : 0 < L) (xs : List α) :
    ∀ ch ∈ (sliceChunks L xs).dropLast, ch.length = L :=
  sliceChunks_dropLast_length_aux L hL xs.length xs (le_refl _)

theorem jsonBatches_indices (xs : List α) (L : Nat) :
    (jsonBatches xs L).map Batch.group_index = List.range ((jsonBatches xs L).length) := by
  simp [jsonBatches, List.map_map, Function.comp_def, List.enum_map_fst]

/-- C6: slicing a collection through the document backend's producer
with chunk length `L > 0` partitions it in order (concatenating the
chunk data gives back the collection), every chunk is non-empty and at
most `L` long, every chunk except the last is exactly `L` long, chunk
indices run 0, 1, 2, … in slice order, an empty collection yields zero
chunks, and in particular 100 entities with `L = 50` give exactly the
two chunks `[0..50)` and `[50..100)` with index sequence `[0, 1]`. -/
theorem c6_document_backend_slicing (xs : List α) (L : Nat) (hL : 0 < L) :
    ((jsonBatches xs L).map Batch.data).flatten = xs
    ∧ (∀ b ∈ jsonBatches xs L, 0 < b.data.length ∧ b.data.length ≤ L)
    ∧ (∀ b ∈ (jsonBatches xs L).dropLast, b.data.length = L)
    ∧ (jsonBatches xs L).map Batch.group_index = List.range ((jsonBatches xs L).length)
    ∧ (xs = [] → jsonBatches xs L = [])
    ∧ jsonBatches (List.range 100) 50
        = [⟨(List.range 100).take 50, 0⟩, ⟨(List.range 100).drop 50, 1⟩] := by
  refine ⟨?_, ?_, ?_, jsonBatches_indices xs L, ?_, by decide⟩
  · have hdata : (jsonBatches xs L).map Batch.data = sliceChunks L xs := by
      simp [jsonBatches, List.map_map, Function.comp_def, List.enum_map_snd]
    rw [hdata, sliceChunks_flatten]
  · intro b hb
    simp only [jsonBatches, List.mem_map] at hb
    obtain ⟨p, hp, hpb⟩ := hb
    have hmem : p.2 ∈ sliceChunks L xs := by
      have hm := List.mem_map_of_mem Prod.snd hp
      rwa [List.enum_map_snd] at hm
    rw [← hpb]
    exact sliceChunks_mem_length L hL xs p.2 hmem
  · intro b hb
    simp only [jsonBatches, ← List.map_dropLast, List.mem_map] at hb
    obtain ⟨p, hp, hpb⟩ := hb
    have hmem : p.2 ∈ (sliceChunks L xs).dropLast := by
      have hm := List.mem_map_of_mem Prod.snd hp
      rwa [List.map_dropLast, List.enum_map_snd] at hm
    rw [← hpb]
    exact sliceChunks_dropLast_length L hL xs p.2 hmem
  · intro h
    subst h
    rfl

/-- Witness for C6: the slicing theorem instantiated at 100 entities and
chunk length 50. -/
theorem c6_document_backend_slicing_witness :
    ((jsonBatches (List.range 100) 50).map Batch.data).flatten = List.range 100
    ∧ jsonBatches (List.range 100) 50
        = [⟨(List.range 100).take 50, 0⟩, ⟨(List.range 100).drop 50, 1⟩] :=
  ⟨(c6_document_backend_slicing (List.range 100) 50 (by decide)).1,
   (c6_document_backend_slicing (List.range 100) 50 (by decide)).2.2.2.2.2⟩

/-- C7 (code-bug evidence): in `config/coin.rs` the transaction-pointer
fields `tx_pointer_block_height` and `tx_pointer_tx_idx` are plain
required fields, not `Option`s, so a coin record with these origin
fields absent is rejected by the deserializer rather than representable
as "freshly created at this genesis" — contradicting the claim, the
spec, and state.rs's own tests and `initial_coin`, which treat them as
optional. -/
theorem c7_tx_pointer_fields_required (fresh : Bytes32) :
    CoinConfig.fromJson fresh (.obj [("maturity", .num 0),
      ("owner", encBytes zeroBytes32), ("amount", .num 0),
      ("asset_id", encBytes zeroBytes32)])
      = .error "missing field tx_pointer_block_height" := rfl

/-! ## Preset generation (`config/state.rs`, `local_testnet` and
`initial_coin`)

As written, `initial_coin` (and with it `local_testnet` and the tests of
state.rs) populates `tx_id`, `output_index`, `tx_pointer_block_height`,
`tx_pointer_tx_idx` and `maturity` with `Option` values (`None` /
`Some`), which does not typecheck against the `CoinConfig` of
`config/coin.rs` above, whose fields are plain values.  The entity
record these constructors actually build is therefore modelled
separately here, from the spec's entity description (section 3:
"an optional originating block height and intra-block index … absence
means freshly created at this genesis"). -/

/-- Modelled from the spec: a secret key (`fuel_vm::SecretKey`, not
under src), an opaque 32-byte input to coin construction. -/
abbrev SecretKey := List Byte

/-- Parse a secret key from a `0x`-prefixed 64-digit hex literal
(`SecretKey::from_str`); `none` models the parse failure that
`local_testnet` unwraps with `expect("Expected valid secret")`. -/
def SecretKey.from_str (s : String) : Option SecretKey :=
  match hexDecode s with
  | some bs => if bs.length = 32 then some bs else none
  | none => none

/-- Modelled from the spec: the spendable-output entity exactly as
state.rs's constructors and tests build it — the origin reference
(`tx_id`, `output_index`), transaction pointer and maturity are optional
fields whose absence signals "originated at this genesis".  (The
`CoinConfig` of `config/coin.rs` declares these fields non-optional; see
the C7 evidence above for that contradiction.) -/
structure CoinConfigInitial where
  tx_id : Option Bytes32
  output_index : Option Nat
  tx_pointer_block_height : Option Nat
  tx_pointer_tx_idx : Option Nat
  maturity : Option Nat
  owner : Address
  amount : Nat
  asset_id : AssetId
deriving DecidableEq

/-- The coin construction primitive (`StateConfig::initial_coin`).  The
secret-to-address derivation (`Address::from(*secret.public_key().hash())`,
secp256k1 plus SHA-256, out of scope per spec section 1) is passed as
the function `derive`. -/
def StateConfig.initial_coin (derive : SecretKey → Address) (secret : SecretKey)
    (amount : Nat) (utxo_id : Option UtxoId) : CoinConfigInitial :=
  let address := derive secret
  { tx_id := utxo_id.map (fun u => u.tx_id)
  , output_index := utxo_id.map (fun u => u.output_index)
  , tx_pointer_block_height := none
  , tx_pointer_tx_idx := none
  , maturity := none
  , owner := address
  , amount := amount
  , asset_id := zeroBytes32 }

/-- The five fixed secret-key literals of `StateConfig::local_testnet`. -/
def TESTNET_SECRETS : List String :=
  ["0xde97d8624a438121b86a1956544bd72ed68cd69f2c99555b08b1e8c51ffd511c",
   "0x37fa81c84ccd547c30c176b118d5cb892bdb113e8e80141f266519422ef9eefd",
   "0x862512a2363db2b3a375c0d4bbbd27172180d89f23f2e259bac850ab02619301",
   "0x976e5c3fa620092c718d852ca703b6da9e3075b9f2ecb8ed42d9f746bf26aafb",
   "0x7f8a325504e7315eda997db7861c9447f5c3eff26333b20180475d94443a10c6"]

/-- The aggregate as the preset generators populate it; it mirrors
`StateConfig`, with the coin collection holding the entity records the
constructors of state.rs actually build (see `CoinConfigInitial`). -/
structure StateConfigInitial where
  coins : Option (List CoinConfigInitial) := none
  contracts : Option (List ContractConfig) := none
  messages : Option (List MessageConfig) := none
deriving DecidableEq

/-- The deterministic preset generator (`StateConfig::local_testnet`).
For each fixed secret literal it parses the secret, derives the
address, computes the bech32 display encoding of the address (via the
external `bech32enc`, spec section 1: display formatting is an external
collaborator) for the `tracing::info!` log line, and constructs one
coin via `initial_coin` with the testnet initial balance
(`TESTNET_INITIAL_BALANCE`, a crate-root constant not under src, passed
here as `testnet_initial_balance`) and no origin reference.  The result
pairs the aggregate — coins present, contracts and messages left at
their `StateConfig::default()` of `None` — with the emitted log
lines. -/
def StateConfig.local_testnet (derive : SecretKey → Address)
    (bech32enc : Address → String) (testnet_initial_balance : Nat) :
    StateConfigInitial × List String :=
  let entries := TESTNET_SECRETS.map (fun s =>
    let secret := (SecretKey.from_str s).getD []
    let address := derive secret
    let bech32_encoding := bech32enc address
    (StateConfig.initial_coin derive secret testnet_initial_balance none, bech32_encoding))
  ({ coins := some (entries.map Prod.fst), contracts := none, messages := none },
    entries.map Prod.snd)

/-- C3: `initial_coin` with no origin reference leaves the origin
reference fields unset, and with `some origin` copies exactly the
origin's transaction id and output position; in both cases the owner is
the address derived from the secret and the amount is the supplied
amount. -/
theorem c3_initial_coin_origin_fields (derive : SecretKey → Address)
    (secret : SecretKey) (amount : Nat) :
    ((StateConfig.initial_coin derive secret amount none).tx_id = none
      ∧ (StateConfig.initial_coin derive secret amount none).output_index = none
      ∧ (StateConfig.initial_coin derive secret amount none).owner = derive secret
      ∧ (StateConfig.initial_coin derive secret amount none).amount = amount)
    ∧ ∀ u : UtxoId,
      (StateConfig.initial_coin derive secret amount (some u)).tx_id = some u.tx_id
      ∧ (StateConfig.initial_coin derive secret amount (some u)).output_index
          = some u.output_index
      ∧ (StateConfig.initial_coin derive secret amount (some u)).owner = derive secret
      ∧ (StateConfig.initial_coin derive secret amount (some u)).amount = amount :=
  ⟨⟨rfl, rfl, rfl, rfl⟩, fun _ => ⟨rfl, rfl, rfl, rfl⟩⟩

/-- C9: `local_testnet` produces an aggregate whose coins collection is
present and holds exactly one coin per secret in the fixed literal list
(five in all), each built by `initial_coin` with the testnet initial
balance and no origin reference; contracts and messages stay absent;
every one of the five literals parses (the `expect` cannot fire); the
bech32 display encoding influences only the log lines, never the
aggregate, and each log line carries the bech32 encoding of the derived
address. -/
theorem c9_local_testnet (derive : SecretKey → Address)
    (b1 b2 : Address → String) (bal : Nat) :
    (StateConfig.local_testnet derive b1 bal).1
        = { coins := some (TESTNET_SECRETS.map (fun s =>
              StateConfig.initial_coin derive ((SecretKey.from_str s).getD []) bal none)),
            contracts := none, messages := none }
    ∧ ((StateConfig.local_testnet derive b1 bal).1.coins.getD []).length = 5
    ∧ (∀ s ∈ TESTNET_SECRETS, (SecretKey.from_str s).isSome = true)
    ∧ (StateConfig.local_testnet derive b1 bal).1
        = (StateConfig.local_testnet derive b2 bal).1
    ∧ (StateConfig.local_testnet derive b1 bal).2
        = TESTNET_SECRETS.map (fun s => b1 (derive ((SecretKey.from_str s).getD []))) :=
  ⟨rfl, rfl, by decide, rfl, rfl⟩

/-- A serialized snapshot document holding one coin record whose
`tx_id` key is missing (all other coin fields present). -/
def c10_doc : Json :=
  .obj [("coins", .arr [.obj [("output_index", .num 0),
    ("tx_pointer_block_height", .num 0), ("tx_pointer_tx_idx", .num 0),
    ("maturity", .num 0), ("owner", encBytes zeroBytes32), ("amount", .num 0),
    ("asset_id", encBytes zeroBytes32)]])]

/-- The coin record `c10_doc` decodes to when the ambient RNG produces
`b` for the missing `tx_id`. -/
def c10_coin (b : Bytes32) : CoinConfig :=
  { tx_id := b, output_index := 0, tx_pointer_block_height := 0,
    tx_pointer_tx_idx := 0, maturity := 0, owner := zeroBytes32, amount := 0,
    asset_id := zeroBytes32 }

/-- The aggregate `c10_doc` decodes to when the ambient RNG produces
`b` for the missing `tx_id`. -/
def c10_decoded (b : Bytes32) : StateConfig :=
  { coins := some [c10_coin b], contracts := none, messages := none }

/-- C10: a coin record that omits its origin transaction identifier is
accepted, with the missing field filled from the ambient random-number
generator (modelled by the explicit supply `fresh`); consequently two
decodes of the same document under different ambient RNG states yield
aggregates differing in that coin's `tx_id` — decoding is not
deterministic at this edge. -/
theorem c10_missing_tx_id_filled_randomly :
    (∀ fresh : Nat → Bytes32,
      StateConfig.fromJson fresh c10_doc = .ok (c10_decoded (fresh 0)))
    ∧ StateConfig.fromJson (fun _ => zeroBytes32) c10_doc
        = .ok (c10_decoded zeroBytes32)
    ∧ StateConfig.fromJson (fun _ => List.replicate 32 1) c10_doc
        = .ok (c10_decoded (List.replicate 32 1))
    ∧ c10_decoded zeroBytes32 ≠ c10_decoded (List.replicate 32 1) :=
  ⟨fun _ => rfl, rfl, rfl, by decide⟩

/-- Witness for C9: instantiated at a concrete derivation function,
display encoder and balance, the aggregate equals the mapped coin list
with contracts and messages absent, and the first secret literal
parses. -/
theorem c9_local_testnet_witness :
    (StateConfig.local_testnet (fun _ => List.replicate 32 2) (fun _ => "addr") 100).1
        = { coins := some (TESTNET_SECRETS.map (fun s =>
              StateConfig.initial_coin (fun _ => List.replicate 32 2)
                ((SecretKey.from_str s).getD []) 100 none)),
            contracts := none, messages := none }
    ∧ (SecretKey.from_str
        "0xde97d8624a438121b86a1956544bd72ed68cd69f2c99555b08b1e8c51ffd511c").isSome
        = true :=
  ⟨(c9_local_testnet (fun _ => List.replicate 32 2) (fun _ => "addr")
      (fun _ => "addr") 100).1,
   (c9_local_testnet (fun _ => List.replicate 32 2) (fun _ => "addr")
      (fun _ => "addr") 100).2.2.1
      "0xde97d8624a438121b86a1956544bd72ed68cd69f2c99555b08b1e8c51ffd511c"
      (by decide)⟩
